import Mathlib

/-!
Shallow embedding of the `repology-linkchecker.py` driver: the options record
produced by `parse_arguments`, the components constructed at the top of
`main_loop`, the `print_statistics` report, and the run loop itself, modelled
as an event trace indexed by the number of loop iterations executed (fuel).
-/

/-- A URL as handed around by the driver (opaque identity suffices). -/
abbrev Url := String

/-- The options produced by `parse_arguments` (argparse Namespace fields). -/
structure Options where
  dsn : String
  recheck_age : Int
  delay : Rat
  timeout : Int
  max_host_workers : Int
  max_host_queue : Int
  single_run : Bool
deriving DecidableEq, Repr

/-- The default values declared in `parse_arguments`. -/
def parse_arguments_defaults : Options :=
  { dsn := "dbname=repology user=repology password=repology"
  , recheck_age := 604800
  , delay := 3
  , timeout := 60
  , max_host_workers := 100
  , max_host_queue := 100
  , single_run := false }

/-- Abstract handle for the aiopg connection pool passed into `main_loop`. -/
structure PgPool where
  dsn : String
deriving DecidableEq

/-- `DelayManager(options.delay)`: constructed from the configured delay. -/
structure DelayManager where
  delay : Rat
deriving DecidableEq

/-- `DummyUrlProcessor(pgpool)`: constructed from the pg pool alone. -/
structure DummyUrlProcessor where
  pgpool : PgPool
deriving DecidableEq

/-- `HttpUrlProcessor(pgpool, delay_manager, options.timeout)`. -/
structure HttpUrlProcessor where
  pgpool : PgPool
  delay_manager : DelayManager
  timeout : Int
deriving DecidableEq

/-- `DispatchingUrlProcessor(dummy_processor, http_processor)`. -/
structure DispatchingUrlProcessor where
  dummy_processor : DummyUrlProcessor
  http_processor : HttpUrlProcessor
deriving DecidableEq

/-- `HostWorkerPool(dispatcher)`: constructed from the dispatcher alone. -/
structure HostWorkerPool where
  dispatcher : DispatchingUrlProcessor
deriving DecidableEq

/-- The five objects `main_loop` builds before entering its loop. -/
structure Components where
  delay_manager : DelayManager
  dummy_processor : DummyUrlProcessor
  http_processor : HttpUrlProcessor
  dispatcher : DispatchingUrlProcessor
  worker_pool : HostWorkerPool
deriving DecidableEq

/-- The construction sequence at the top of `main_loop` (lines 45-51). -/
def makeComponents (options : Options) (pgpool : PgPool) : Components :=
  let delay_manager := DelayManager.mk options.delay
  let dummy_processor := DummyUrlProcessor.mk pgpool
  let http_processor := HttpUrlProcessor.mk pgpool delay_manager options.timeout
  let dispatcher := DispatchingUrlProcessor.mk dummy_processor http_processor
  let worker_pool := HostWorkerPool.mk dispatcher
  { delay_manager := delay_manager
  , dummy_processor := dummy_processor
  , http_processor := http_processor
  , dispatcher := dispatcher
  , worker_pool := worker_pool }

/-- The pool's per-run counters (`RunStatistics`). -/
structure RunStatistics where
  scanned : Nat
  submitted : Nat
  dropped : Nat
  processed : Nat
deriving DecidableEq, Repr

/-- The string printed by `print_statistics` (lines 55-66): the format call
receives `run_number`, `stats.scanned`, `stats.submitted`, `stats.processed`. -/
def print_statistics (run_number : Nat) (stats : RunStatistics) : String :=
  "Run #" ++ toString run_number ++ " finished: "
    ++ toString stats.scanned ++ " urls scanned, "
    ++ toString stats.submitted ++ " submitted for processing, "
    ++ toString stats.processed ++ " processed"

/-- The five components, in construction order. -/
inductive Component where
  | delayManager
  | dummyProcessor
  | httpProcessor
  | dispatcher
  | workerPool
deriving DecidableEq, Repr

/-- Observable actions of the driver, in program order. -/
inductive Event where
  | construct (c : Component)
  | reset_statistics
  | iterate_stale (maxAgeSeconds : Int)
  | yield_url (u : Url)
  | add_url (u : Url)
  | report (runNumber : Nat)
  | join
  | sleep (seconds : Nat)
deriving DecidableEq, Repr

/-- Events emitted while constructing the components (lines 45-51). -/
def constructionEvents : List Event :=
  [ Event.construct Component.delayManager
  , Event.construct Component.dummyProcessor
  , Event.construct Component.httpProcessor
  , Event.construct Component.dispatcher
  , Event.construct Component.workerPool ]

/-- The `async for url in iterate_urls_to_recheck(...)` body: each URL is
pulled from the staleness source and then `add_url` is awaited on it, before
the next URL is pulled. -/
def scanEvents : List Url → List Event
  | [] => []
  | u :: rest => Event.yield_url u :: Event.add_url u :: scanEvents rest

/-- One iteration of the `while True` loop (lines 71-85), for the given run
number and the URLs which the staleness source yields in this run:
`reset_statistics`; iterate the stale URLs (max age = `recheck_age` seconds),
awaiting `add_url` on each; `print_statistics()`; then either
`await join(); return` (single-run) or `await asyncio.sleep(60)`. -/
def runBody (options : Options) (runNumber : Nat) (urls : List Url) : List Event :=
  [Event.reset_statistics, Event.iterate_stale options.recheck_age]
    ++ scanEvents urls
    ++ [Event.report runNumber]
    ++ (if options.single_run then [Event.join] else [Event.sleep 60])

/-- The loop iterations starting after `runNumber` runs have already
finished, executing at most `fuel` further iterations. Returns the events
emitted and whether `main_loop` returned within that fuel. -/
def runsFrom (options : Options) (urls : Nat → List Url) :
    Nat → Nat → List Event × Bool
  | _, 0 => ([], false)
  | runNumber, fuel + 1 =>
    let body := runBody options (runNumber + 1) (urls (runNumber + 1))
    if options.single_run then
      (body, true)
    else
      let rest := runsFrom options urls (runNumber + 1) fuel
      (body ++ rest.1, rest.2)

/-- Result of running `main_loop` for up to `fuel` loop iterations. -/
structure LoopRun where
  components : Components
  trace : List Event
  terminated : Bool
deriving DecidableEq

/-- `main_loop(options, pgpool)`: builds the components once, then loops.
`urls n` is the (finite) sequence the staleness source yields in run `n`;
`fuel` bounds how many iterations we observe. -/
def main_loop (options : Options) (pgpool : PgPool) (urls : Nat → List Url)
    (fuel : Nat) : LoopRun :=
  let r := runsFrom options urls 0 fuel
  { components := makeComponents options pgpool
  , trace := constructionEvents ++ r.1
  , terminated := r.2 }

/-- Discriminators used to project traces onto the events a claim mentions. -/
def Event.isConstruct : Event → Bool
  | Event.construct _ => true
  | _ => false

def Event.isReport : Event → Bool
  | Event.report _ => true
  | _ => false

def Event.isJoin : Event → Bool
  | Event.join => true
  | _ => false

def Event.isSleep : Event → Bool
  | Event.sleep _ => true
  | _ => false

def Event.isIterate : Event → Bool
  | Event.iterate_stale _ => true
  | _ => false

def Event.isScanStep : Event → Bool
  | Event.yield_url _ => true
  | Event.add_url _ => true
  | _ => false

/-- Number of loop iterations actually executed within `fuel`: one in
single-run mode (when fuel permits), otherwise all of them. -/
def numRuns (options : Options) (fuel : Nat) : Nat :=
  if options.single_run then min 1 fuel else fuel

/-- Concrete fixtures used by counterexamples and witnesses. -/
def pgpool0 : PgPool := PgPool.mk parse_arguments_defaults.dsn

def singleRunOptions : Options := { parse_arguments_defaults with single_run := true }

def oneUrlSource : Nat → List Url := fun _ => ["https://example.com/"]

def emptySource : Nat → List Url := fun _ => []

example :
    (main_loop singleRunOptions pgpool0 oneUrlSource 1).trace
      = constructionEvents
        ++ [Event.reset_statistics, Event.iterate_stale 604800,
            Event.yield_url "https://example.com/", Event.add_url "https://example.com/",
            Event.report 1, Event.join] := by decide

example :
    (main_loop parse_arguments_defaults pgpool0 emptySource 2).trace
      = constructionEvents
        ++ [Event.reset_statistics, Event.iterate_stale 604800, Event.report 1, Event.sleep 60,
            Event.reset_statistics, Event.iterate_stale 604800, Event.report 2, Event.sleep 60] := by
  decide

/-! ### Helper lemmas about the trace -/

lemma scanEvents_filter_eq_nil (p : Event → Bool)
    (hy : ∀ u, p (Event.yield_url u) = false)
    (ha : ∀ u, p (Event.add_url u) = false) :
    ∀ l : List Url, (scanEvents l).filter p = [] := by
  intro l
  induction l with
  | nil => rfl
  | cons u rest ih => simp [scanEvents, List.filter_cons, hy, ha, ih]

lemma scanEvents_filter_scanStep :
    ∀ l : List Url, (scanEvents l).filter Event.isScanStep = scanEvents l := by
  intro l
  induction l with
  | nil => rfl
  | cons u rest ih => simp [scanEvents, List.filter_cons, Event.isScanStep, ih]

lemma scanEvents_eq_flatten_map :
    ∀ l : List Url,
      scanEvents l
        = List.flatten (l.map (fun u => [Event.yield_url u, Event.add_url u])) := by
  intro l
  induction l with
  | nil => rfl
  | cons u rest ih => simp [scanEvents, ih]

lemma runBody_filter (p : Event → Bool) (options : Options) (n : Nat) (urls : List Url)
    (hr : p Event.reset_statistics = false)
    (hi : p (Event.iterate_stale options.recheck_age) = false)
    (hy : ∀ u, p (Event.yield_url u) = false)
    (ha : ∀ u, p (Event.add_url u) = false) :
    (runBody options n urls).filter p
      = (if p (Event.report n) then [Event.report n] else [])
        ++ (if options.single_run then
              (if p Event.join then [Event.join] else [])
            else
              (if p (Event.sleep 60) then [Event.sleep 60] else [])) := by
  by_cases h : options.single_run = true <;>
    by_cases hrep : p (Event.report n) = true <;>
    simp [runBody, h, hrep, List.filter_cons, List.filter_append, hr, hi,
      scanEvents_filter_eq_nil p hy ha]

lemma runsFrom_filter_eq_nil (p : Event → Bool) (options : Options) (urls : Nat → List Url)
    (hbody : ∀ n u, (runBody options n u).filter p = []) :
    ∀ fuel k, ((runsFrom options urls k fuel).1).filter p = [] := by
  intro fuel
  induction fuel with
  | zero => intro k; rfl
  | succ m ih =>
    intro k
    by_cases h : options.single_run = true <;>
      simp [runsFrom, h, List.filter_append, hbody, ih]

lemma runsFrom_filter_cont (p : Event → Bool) (options : Options) (urls : Nat → List Url)
    (h : options.single_run = false) :
    ∀ fuel k, ((runsFrom options urls k fuel).1).filter p
      = List.flatten ((List.range' (k + 1) fuel).map
          (fun n => (runBody options n (urls n)).filter p)) := by
  intro fuel
  induction fuel with
  | zero => intro k; rfl
  | succ m ih =>
    intro k
    simp [runsFrom, h, List.filter_append, List.range'_succ, ih (k + 1)]

lemma runsFrom_single_run (options : Options) (urls : Nat → List Url)
    (h : options.single_run = true) (k : Nat) :
    ∀ fuel, 0 < fuel →
      runsFrom options urls k fuel = (runBody options (k + 1) (urls (k + 1)), true) := by
  intro fuel hf
  cases fuel with
  | zero => exact absurd hf (by simp)
  | succ m => simp [runsFrom, h]

lemma runsFrom_terminated_cont (options : Options) (urls : Nat → List Url)
    (h : options.single_run = false) :
    ∀ fuel k, (runsFrom options urls k fuel).2 = false := by
  intro fuel
  induction fuel with
  | zero => intro k; rfl
  | succ m ih => intro k; simp [runsFrom, h, ih]

lemma runsFrom_snoc (options : Options) (urls : Nat → List Url)
    (h : options.single_run = false) :
    ∀ fuel k, (runsFrom options urls k (fuel + 1)).1
      = (runsFrom options urls k fuel).1
        ++ runBody options (k + fuel + 1) (urls (k + fuel + 1)) := by
  intro fuel
  induction fuel with
  | zero => intro k; simp [runsFrom, h]
  | succ m ih =>
    intro k
    have e : k + 1 + m + 1 = k + (m + 1) + 1 := by omega
    calc (runsFrom options urls k (m + 1 + 1)).1
        = runBody options (k + 1) (urls (k + 1))
            ++ (runsFrom options urls (k + 1) (m + 1)).1 := by
          simp [runsFrom, h]
      _ = runBody options (k + 1) (urls (k + 1))
            ++ ((runsFrom options urls (k + 1) m).1
              ++ runBody options (k + 1 + m + 1) (urls (k + 1 + m + 1))) := by
          rw [ih (k + 1)]
      _ = (runsFrom options urls k (m + 1)).1
            ++ runBody options (k + (m + 1) + 1) (urls (k + (m + 1) + 1)) := by
          rw [e]; simp [runsFrom, h, List.append_assoc]

lemma flatten_map_singleton {α β : Type} (f : α → β) :
    ∀ l : List α, List.flatten (l.map (fun a => [f a])) = l.map f := by
  intro l
  induction l with
  | nil => rfl
  | cons a rest ih => simp [ih]

/-! ### Options which differ only in the host caps -/

lemma runsFrom_congr (o₁ o₂ : Options) (urls : Nat → List Url)
    (hra : o₁.recheck_age = o₂.recheck_age) (hsr : o₁.single_run = o₂.single_run) :
    ∀ fuel k, runsFrom o₁ urls k fuel = runsFrom o₂ urls k fuel := by
  intro fuel
  induction fuel with
  | zero => intro k; rfl
  | succ m ih => intro k; simp [runsFrom, runBody, hra, hsr, ih]

/-- C3: two executions of `main_loop` whose options differ only in
`--max-host-workers` and `--max-host-queue` construct identical components and
behave identically: neither cap is read after parsing, and the
`HostWorkerPool` is constructed from the dispatcher alone. -/
theorem c3_host_caps_unused (options : Options) (w q : Int) (pgpool : PgPool)
    (urls : Nat → List Url) (fuel : Nat) :
    main_loop { options with max_host_workers := w, max_host_queue := q } pgpool urls fuel
      = main_loop options pgpool urls fuel ∧
    (main_loop options pgpool urls fuel).components.worker_pool
      = HostWorkerPool.mk (main_loop options pgpool urls fuel).components.dispatcher := by
  refine ⟨?_, rfl⟩
  have h := runsFrom_congr { options with max_host_workers := w, max_host_queue := q }
    options urls rfl rfl fuel 0
  simp only [main_loop, h]
  rfl

/-! ### Checker model (outcome and delay state) -/

/-- The possible classified results of checking one URL. -/
inductive CheckOutcome where
  | reachable
  | redirected (target : Url)
  | client_error (code : Nat)
  | server_error (code : Nat)
  | connection_failed
  | timed_out
  | skipped
deriving DecidableEq, Repr

/-- DelayManager runtime state: the per-host last-request timestamps. -/
structure DelayState where
  last_request : List (Url × Rat)
deriving DecidableEq

/-- One check result persisted to storage. -/
structure PersistRecord where
  task : Url
  outcome : CheckOutcome
  timestamp : Rat
deriving DecidableEq

/-- Modelled from the spec: the body of `DummyUrlProcessor.process` is not
under `src/` (only its construction in `main_loop` is). Per the spec, the
no-op checker immediately persists `skipped` and returns, and never waits on
or records a timestamp in the DelayManager. The DelayManager state is
threaded explicitly and returned untouched; the persisted record is appended
to the sink. -/
def DummyUrlProcessor.process (_self : DummyUrlProcessor) (task : Url) (now : Rat)
    (ds : DelayState) (sink : List PersistRecord) :
    CheckOutcome × DelayState × List PersistRecord :=
  (CheckOutcome.skipped, ds, sink ++ [PersistRecord.mk task CheckOutcome.skipped now])

/-- C9: processing a task through the no-op checker leaves the DelayManager
state unchanged and yields `skipped`; among the checkers constructed by
`main_loop`, only the network (http) checker receives the DelayManager and the
configured per-check timeout — the no-op checker is built from the pg pool
alone. -/
theorem c9_dummy_checker_frame (options : Options) (pgpool : PgPool) (task : Url)
    (now : Rat) (ds : DelayState) (sink : List PersistRecord) :
    ((makeComponents options pgpool).dummy_processor.process task now ds sink).2.1 = ds ∧
    ((makeComponents options pgpool).dummy_processor.process task now ds sink).1
      = CheckOutcome.skipped ∧
    (makeComponents options pgpool).dummy_processor = DummyUrlProcessor.mk pgpool ∧
    (makeComponents options pgpool).http_processor
      = HttpUrlProcessor.mk pgpool ((makeComponents options pgpool).delay_manager)
          options.timeout ∧
    (makeComponents options pgpool).delay_manager = DelayManager.mk options.delay :=
  ⟨rfl, rfl, rfl, rfl, rfl⟩

/-! ### Construction happens exactly once -/

lemma runsFrom_no_construct (options : Options) (urls : Nat → List Url) :
    ∀ fuel k, ((runsFrom options urls k fuel).1).filter Event.isConstruct = [] :=
  runsFrom_filter_eq_nil Event.isConstruct options urls
    (fun n u => by
      rw [runBody_filter Event.isConstruct options n u rfl rfl
        (fun _ => rfl) (fun _ => rfl)]
      simp [Event.isConstruct])

/-- C10: the DelayManager, the two checkers, the dispatcher and the
HostWorkerPool are each constructed exactly once, before the first run; the
construct events are the first five events of every trace and never recur, and
the components of the run are the ones built up front regardless of how many
iterations execute — so the same instances (with their per-host timestamps and
any work still held by the pool) are reused across run boundaries. -/
theorem c10_components_constructed_once (options : Options) (pgpool : PgPool)
    (urls : Nat → List Url) (fuel : Nat) :
    (main_loop options pgpool urls fuel).trace.filter Event.isConstruct
      = constructionEvents ∧
    (main_loop options pgpool urls fuel).trace.take 5 = constructionEvents ∧
    (main_loop options pgpool urls fuel).components = makeComponents options pgpool := by
  refine ⟨?_, rfl, rfl⟩
  simp [main_loop, List.filter_append, runsFrom_no_construct, constructionEvents,
    Event.isConstruct, List.filter_cons]

/-! ### C1: when is the pool drained, relative to the report? -/

/-- C1 counterexample: in continuous mode (defaults, one cycle observed, one
stale URL) the run's statistics are reported, yet `join` never appears in the
trace — the pool is not drained before reporting, refuting the claim that
draining precedes reporting in both modes. -/
theorem c1_join_report_order_counterexample :
    Event.report 1 ∈ (main_loop parse_arguments_defaults pgpool0 oneUrlSource 1).trace ∧
    Event.join ∉ (main_loop parse_arguments_defaults pgpool0 oneUrlSource 1).trace := by
  decide

lemma runBody_filter_join_cont (options : Options) (h : options.single_run = false)
    (n : Nat) (u : List Url) :
    (runBody options n u).filter Event.isJoin = [] := by
  rw [runBody_filter Event.isJoin options n u rfl rfl (fun _ => rfl) (fun _ => rfl)]
  simp [Event.isJoin, h]

/-- C1 (amended): `join()` is called only in single-run mode, and there it
runs after the statistics report, immediately before `main_loop` returns; in
continuous mode the driver never drains the pool. -/
theorem c1_join_only_single_run_after_report (options : Options) (pgpool : PgPool)
    (urls : Nat → List Url) (fuel : Nat) :
    (options.single_run = false →
      Event.join ∉ (main_loop options pgpool urls fuel).trace) ∧
    (options.single_run = true → 0 < fuel →
      (main_loop options pgpool urls fuel).trace
        = constructionEvents
          ++ [Event.reset_statistics, Event.iterate_stale options.recheck_age]
          ++ scanEvents (urls 1)
          ++ [Event.report 1, Event.join]) := by
  constructor
  · intro h hmem
    have hfil : Event.join ∈ ((main_loop options pgpool urls fuel).trace).filter Event.isJoin :=
      List.mem_filter.mpr ⟨hmem, rfl⟩
    have hnil : ((main_loop options pgpool urls fuel).trace).filter Event.isJoin = [] := by
      simp [main_loop, List.filter_append, constructionEvents, List.filter_cons,
        Event.isJoin, runsFrom_filter_eq_nil Event.isJoin options urls
          (fun n u => runBody_filter_join_cont options h n u) fuel 0]
    rw [hnil] at hfil
    exact absurd hfil (by simp)
  · intro h hf
    have hr := runsFrom_single_run options urls h 0 fuel hf
    simp [main_loop, hr, runBody, h, List.append_assoc]

/-- Witness for the amended C1, at concrete inputs in both modes. -/
theorem c1_join_only_single_run_after_report_witness :
    Event.join ∉ (main_loop parse_arguments_defaults pgpool0 oneUrlSource 2).trace ∧
    (main_loop singleRunOptions pgpool0 oneUrlSource 2).trace
      = constructionEvents
        ++ [Event.reset_statistics, Event.iterate_stale singleRunOptions.recheck_age]
        ++ scanEvents (oneUrlSource 1)
        ++ [Event.report 1, Event.join] :=
  ⟨(c1_join_only_single_run_after_report parse_arguments_defaults pgpool0 oneUrlSource 2).1
      rfl,
   (c1_join_only_single_run_after_report singleRunOptions pgpool0 oneUrlSource 2).2
      rfl (by decide)⟩

/-! ### C2: which counters appear in the report -/

/-- C2 counterexample: two statistics snapshots which differ only in the
`dropped` counter produce the identical report line — the report does not
contain the `dropped` counter, refuting the claim that all four canonical
counters appear. -/
theorem c2_report_omits_dropped_counterexample :
    print_statistics 1 (RunStatistics.mk 5 4 0 4)
        = print_statistics 1 (RunStatistics.mk 5 4 7 4) ∧
    (RunStatistics.mk 5 4 0 4).dropped ≠ (RunStatistics.mk 5 4 7 4).dropped :=
  ⟨rfl, by decide⟩

/-- C2 (amended): the per-run report contains the run number and the
`scanned`, `submitted` and `processed` counters read from the snapshot — each
of which changes the report line — but omits `dropped`: the line is
independent of it. -/
theorem c2_report_fields :
    (∀ (r : Nat) (s : RunStatistics) (d : Nat),
      print_statistics r { s with dropped := d } = print_statistics r s) ∧
    print_statistics 1 (RunStatistics.mk 1 0 0 0)
        ≠ print_statistics 1 (RunStatistics.mk 2 0 0 0) ∧
    print_statistics 1 (RunStatistics.mk 0 1 0 0)
        ≠ print_statistics 1 (RunStatistics.mk 0 2 0 0) ∧
    print_statistics 1 (RunStatistics.mk 0 0 0 1)
        ≠ print_statistics 1 (RunStatistics.mk 0 0 0 2) ∧
    print_statistics 1 (RunStatistics.mk 0 0 0 0)
        ≠ print_statistics 2 (RunStatistics.mk 0 0 0 0) :=
  ⟨fun _ _ _ => rfl, by decide, by decide, by decide, by decide⟩

/-! ### C4: the inter-cycle pause -/

/-- C4 counterexample: a cycle in which the staleness source yields nothing
(scanned is 0) and a cycle in which it yields a URL both end with exactly the
same 60-second pause — the pause on an empty scan is not strictly longer. -/
theorem c4_sleep_counterexample :
    (main_loop parse_arguments_defaults pgpool0 emptySource 1).trace.filter Event.isSleep
        = [Event.sleep 60] ∧
    (main_loop parse_arguments_defaults pgpool0 oneUrlSource 1).trace.filter Event.isSleep
        = [Event.sleep 60] := by
  decide

lemma runBody_filter_sleep_cont (options : Options) (h : options.single_run = false)
    (n : Nat) (u : List Url) :
    (runBody options n u).filter Event.isSleep = [Event.sleep 60] := by
  rw [runBody_filter Event.isSleep options n u rfl rfl (fun _ => rfl) (fun _ => rfl)]
  simp [Event.isSleep, h]

/-- C4 (amended): in continuous mode the loop pauses for a fixed 60 seconds
after every cycle, regardless of whether the cycle scanned any URLs — the
pause on an empty scan equals, rather than exceeds, the pause otherwise. -/
theorem c4_sleep_constant (options : Options) (pgpool : PgPool)
    (urls : Nat → List Url) (fuel : Nat) (h : options.single_run = false) :
    (main_loop options pgpool urls fuel).trace.filter Event.isSleep
      = List.replicate fuel (Event.sleep 60) := by
  have hfil := runsFrom_filter_cont Event.isSleep options urls h fuel 0
  have hbody : ∀ n, (runBody options n (urls n)).filter Event.isSleep
      = [Event.sleep 60] := fun n => runBody_filter_sleep_cont options h n (urls n)
  simp only [hbody] at hfil
  simp [main_loop, List.filter_append, hfil, constructionEvents, List.filter_cons,
    Event.isSleep, flatten_map_singleton (fun _ => Event.sleep 60),
    List.map_const', List.length_range']

/-- Witness for the amended C4: two continuous cycles, one 60s pause each. -/
theorem c4_sleep_constant_witness :
    (main_loop parse_arguments_defaults pgpool0 emptySource 2).trace.filter Event.isSleep
      = List.replicate 2 (Event.sleep 60) :=
  c4_sleep_constant parse_arguments_defaults pgpool0 emptySource 2 rfl

/-! ### C5: termination and the shape of the single-run cycle -/

/-- C5 counterexample: in the single-run trace the report occurs strictly
before `join` — the single cycle is Scanning→Reporting→Draining, not the
claimed Scanning→Draining→Reporting. -/
theorem c5_cycle_order_counterexample :
    Event.report 1 ∈ (main_loop singleRunOptions pgpool0 oneUrlSource 1).trace ∧
    Event.join ∈ (main_loop singleRunOptions pgpool0 oneUrlSource 1).trace ∧
    (main_loop singleRunOptions pgpool0 oneUrlSource 1).trace.indexOf (Event.report 1)
      < (main_loop singleRunOptions pgpool0 oneUrlSource 1).trace.indexOf Event.join := by
  decide

/-- C5 (amended): the loop returns if and only if single-run mode is set (and
at least one iteration is observed): with `--single-run` it returns after
exactly one full Scanning→Reporting→Draining cycle, and without it the loop
never returns — each observed cycle appends a sleep-terminated run body and
the loop goes on to another Scanning phase. -/
theorem c5_termination_iff_single_run (options : Options) (pgpool : PgPool)
    (urls : Nat → List Url) (fuel : Nat) :
    ((main_loop options pgpool urls fuel).terminated = true
      ↔ options.single_run = true ∧ 0 < fuel) ∧
    (options.single_run = true → 0 < fuel →
      (main_loop options pgpool urls fuel).trace
        = constructionEvents ++ runBody options 1 (urls 1)) ∧
    (options.single_run = false →
      (main_loop options pgpool urls (fuel + 1)).trace
        = (main_loop options pgpool urls fuel).trace
          ++ runBody options (fuel + 1) (urls (fuel + 1))) := by
  refine ⟨?_, ?_, ?_⟩
  · constructor
    · intro ht
      by_cases h : options.single_run = true
      · refine ⟨h, ?_⟩
        cases fuel with
        | zero => exact absurd ht (by simp [main_loop, runsFrom])
        | succ m => exact Nat.succ_pos m
      · have h' : options.single_run = false := by
          cases hb : options.single_run
          · rfl
          · exact absurd hb h
        have := runsFrom_terminated_cont options urls h' fuel 0
        exact absurd ht (by simp [main_loop, this])
    · rintro ⟨h, hf⟩
      have hr := runsFrom_single_run options urls h 0 fuel hf
      simp [main_loop, hr]
  · intro h hf
    have hr := runsFrom_single_run options urls h 0 fuel hf
    simp [main_loop, hr]
  · intro h
    have hs := runsFrom_snoc options urls h fuel 0
    simp only [Nat.zero_add] at hs
    simp [main_loop, hs, List.append_assoc]

/-- Witness for the amended C5, at concrete inputs in both modes. -/
theorem c5_termination_iff_single_run_witness :
    ((main_loop singleRunOptions pgpool0 oneUrlSource 1).terminated = true
      ↔ singleRunOptions.single_run = true ∧ 0 < 1) ∧
    (main_loop singleRunOptions pgpool0 oneUrlSource 1).trace
      = constructionEvents ++ runBody singleRunOptions 1 (oneUrlSource 1) ∧
    (main_loop parse_arguments_defaults pgpool0 oneUrlSource 2).trace
      = (main_loop parse_arguments_defaults pgpool0 oneUrlSource 1).trace
        ++ runBody parse_arguments_defaults 2 (oneUrlSource 2) :=
  ⟨(c5_termination_iff_single_run singleRunOptions pgpool0 oneUrlSource 1).1,
   (c5_termination_iff_single_run singleRunOptions pgpool0 oneUrlSource 1).2.1
      rfl (by decide),
   (c5_termination_iff_single_run parse_arguments_defaults pgpool0 oneUrlSource 1).2.2
      rfl⟩

/-! ### C6: statistics are reset before any URL of a run is pulled -/

/-- Walks a trace keeping a flag "statistics have been reset since the last
report (or the start)". Pulling or adding a URL, or starting the staleness
iteration, is only allowed while the flag holds; a report consumes the reset
(the next run needs a fresh one); construction, join and sleep are neutral. -/
def addsCovered : Bool → List Event → Bool
  | _, [] => true
  | _, Event.reset_statistics :: rest => addsCovered true rest
  | ok, Event.iterate_stale _ :: rest => ok && addsCovered ok rest
  | ok, Event.yield_url _ :: rest => ok && addsCovered ok rest
  | ok, Event.add_url _ :: rest => ok && addsCovered ok rest
  | _, Event.report _ :: rest => addsCovered false rest
  | ok, Event.construct _ :: rest => addsCovered ok rest
  | ok, Event.join :: rest => addsCovered ok rest
  | ok, Event.sleep _ :: rest => addsCovered ok rest

lemma addsCovered_scanEvents :
    ∀ (l : List Url) (rest : List Event),
      addsCovered true (scanEvents l ++ rest) = addsCovered true rest := by
  intro l
  induction l with
  | nil => intro rest; rfl
  | cons u t ih => intro rest; simp [scanEvents, addsCovered, ih]

lemma addsCovered_runBody (options : Options) (n : Nat) (u : List Url)
    (rest : List Event) :
    addsCovered false (runBody options n u ++ rest) = addsCovered false rest := by
  by_cases h : options.single_run = true <;>
    simp [runBody, h, addsCovered, List.append_assoc, addsCovered_scanEvents]

lemma addsCovered_runsFrom (options : Options) (urls : Nat → List Url) :
    ∀ (fuel k : Nat) (rest : List Event),
      addsCovered false ((runsFrom options urls k fuel).1 ++ rest)
        = addsCovered false rest := by
  intro fuel
  induction fuel with
  | zero => intro k rest; rfl
  | succ m ih =>
    intro k rest
    by_cases h : options.single_run = true
    · simp [runsFrom, h, addsCovered_runBody]
    · simp [runsFrom, h, List.append_assoc, addsCovered_runBody, ih]

/-- C6: in every trace of the loop, every staleness-source iteration, every
URL pulled and every `add_url` happens under a statistics reset which occurred
after the previous run's report — the counters are reset at the start of each
run before any URL is pulled, so each report covers only its own run. -/
theorem c6_reset_before_scan (options : Options) (pgpool : PgPool)
    (urls : Nat → List Url) (fuel : Nat) :
    addsCovered false (main_loop options pgpool urls fuel).trace = true := by
  have h := addsCovered_runsFrom options urls fuel 0 []
  rw [List.append_nil] at h
  simp [main_loop, constructionEvents, addsCovered, h]

/-! ### Projected trace shapes, run by run -/

/-- Events which end a run's reporting/draining/sleeping tail. -/
def Event.isRunEnd : Event → Bool
  | Event.report _ => true
  | Event.join => true
  | Event.sleep _ => true
  | _ => false

lemma runBody_filter_report (options : Options) (n : Nat) (u : List Url) :
    (runBody options n u).filter Event.isReport = [Event.report n] := by
  rw [runBody_filter Event.isReport options n u rfl rfl (fun _ => rfl) (fun _ => rfl)]
  by_cases h : options.single_run = true <;> simp [Event.isReport, h]

lemma runBody_filter_runEnd (options : Options) (n : Nat) (u : List Url) :
    (runBody options n u).filter Event.isRunEnd
      = [Event.report n, if options.single_run then Event.join else Event.sleep 60] := by
  rw [runBody_filter Event.isRunEnd options n u rfl rfl (fun _ => rfl) (fun _ => rfl)]
  by_cases h : options.single_run = true <;> simp [Event.isRunEnd, h]

lemma runBody_filter_iterate (options : Options) (n : Nat) (u : List Url) :
    (runBody options n u).filter Event.isIterate
      = [Event.iterate_stale options.recheck_age] := by
  by_cases h : options.single_run = true <;>
    simp [runBody, h, List.filter_cons, List.filter_append, Event.isIterate,
      scanEvents_filter_eq_nil Event.isIterate (fun _ => rfl) (fun _ => rfl)]

lemma runBody_filter_scanStep (options : Options) (n : Nat) (u : List Url) :
    (runBody options n u).filter Event.isScanStep = scanEvents u := by
  by_cases h : options.single_run = true <;>
    simp [runBody, h, List.filter_cons, List.filter_append, Event.isScanStep,
      scanEvents_filter_scanStep]

/-- Master lemma: a filtered `main_loop` trace is the concatenation, over the
runs `1, ..., numRuns`, of the filtered run bodies. -/
lemma main_loop_filter (p : Event → Bool) (options : Options) (pgpool : PgPool)
    (urls : Nat → List Url) (fuel : Nat)
    (hcon : constructionEvents.filter p = [])
    (body : Nat → List Event)
    (hbody : ∀ n, (runBody options n (urls n)).filter p = body n) :
    (main_loop options pgpool urls fuel).trace.filter p
      = List.flatten ((List.range' 1 (numRuns options fuel)).map body) := by
  by_cases h : options.single_run = true
  · cases fuel with
    | zero =>
      have ht : (main_loop options pgpool urls 0).trace = constructionEvents := by
        simp [main_loop, runsFrom]
      rw [ht, hcon]
      simp [numRuns, h]
    | succ m =>
      have hr := runsFrom_single_run options urls h 0 (m + 1) (Nat.succ_pos m)
      have hn : numRuns options (m + 1) = 1 := by
        simp only [numRuns, if_pos h]
        omega
      rw [hn]
      simp [main_loop, hr, List.filter_append, hcon, hbody 1, List.range']
  · have h' : options.single_run = false := by
      cases hb : options.single_run
      · rfl
      · exact absurd hb h
    have hfil := runsFrom_filter_cont p options urls h' fuel 0
    simp only [hbody] at hfil
    have hn : numRuns options fuel = fuel := by simp [numRuns, h']
    simp [main_loop, List.filter_append, hcon, hfil, hn]

/-- C7: the filtered trace shows exactly one statistics report per executed
run — run numbers 1, 2, ... in order, present even for runs in which the
staleness source yielded nothing — and each report occurs before the event
that ends its run (the sleep, or the join preceding termination). -/
theorem c7_report_exactly_once_per_run (options : Options) (pgpool : PgPool)
    (urls : Nat → List Url) (fuel : Nat) :
    (main_loop options pgpool urls fuel).trace.filter Event.isReport
      = (List.range' 1 (numRuns options fuel)).map (fun n => Event.report n) ∧
    (main_loop options pgpool urls fuel).trace.filter Event.isRunEnd
      = List.flatten ((List.range' 1 (numRuns options fuel)).map
          (fun n => [Event.report n,
                     if options.single_run then Event.join else Event.sleep 60])) := by
  constructor
  · rw [main_loop_filter Event.isReport options pgpool urls fuel rfl
      (fun n => [Event.report n]) (fun n => runBody_filter_report options n (urls n))]
    exact flatten_map_singleton (fun n => Event.report n) _
  · exact main_loop_filter Event.isRunEnd options pgpool urls fuel rfl
      (fun n => [Event.report n, if options.single_run then Event.join else Event.sleep 60])
      (fun n => runBody_filter_runEnd options n (urls n))

lemma flatten_scanEvents (urls : Nat → List Url) :
    ∀ r : List Nat,
      List.flatten (r.map (fun n => scanEvents (urls n)))
        = List.flatten ((List.flatten (r.map urls)).map
            (fun u => [Event.yield_url u, Event.add_url u])) := by
  intro r
  induction r with
  | nil => rfl
  | cons a t ih =>
    calc List.flatten ((a :: t).map (fun n => scanEvents (urls n)))
        = scanEvents (urls a) ++ List.flatten (t.map (fun n => scanEvents (urls n))) := by
          rw [List.map_cons, List.flatten_cons]
      _ = List.flatten ((urls a).map (fun u => [Event.yield_url u, Event.add_url u]))
            ++ List.flatten ((List.flatten (t.map urls)).map
                (fun u => [Event.yield_url u, Event.add_url u])) := by
          rw [scanEvents_eq_flatten_map, ih]
      _ = List.flatten ((urls a ++ List.flatten (t.map urls)).map
            (fun u => [Event.yield_url u, Event.add_url u])) := by
          rw [List.map_append, List.flatten_append]
      _ = List.flatten ((List.flatten ((a :: t).map urls)).map
            (fun u => [Event.yield_url u, Event.add_url u])) := by
          rw [List.map_cons, List.flatten_cons]

/-- C8: every executed run iterates the staleness source exactly once with a
max age of `recheck_age` seconds, and the scanning events of the whole trace
are, for each URL yielded (runs in order, URLs in yield order), the pull of
that URL immediately followed by its single `add_url` — the next URL is pulled
only after the previous one was added. -/
theorem c8_scan_feeds_pool_in_order (options : Options) (pgpool : PgPool)
    (urls : Nat → List Url) (fuel : Nat) :
    (main_loop options pgpool urls fuel).trace.filter Event.isIterate
      = List.replicate (numRuns options fuel)
          (Event.iterate_stale options.recheck_age) ∧
    (main_loop options pgpool urls fuel).trace.filter Event.isScanStep
      = List.flatten ((List.flatten ((List.range' 1 (numRuns options fuel)).map urls)).map
          (fun u => [Event.yield_url u, Event.add_url u])) := by
  constructor
  · rw [main_loop_filter Event.isIterate options pgpool urls fuel rfl
      (fun _ => [Event.iterate_stale options.recheck_age])
      (fun n => runBody_filter_iterate options n (urls n))]
    rw [flatten_map_singleton (fun _ => Event.iterate_stale options.recheck_age)]
    simp [List.map_const', List.length_range']
  · rw [main_loop_filter Event.isScanStep options pgpool urls fuel rfl
      (fun n => scanEvents (urls n))
      (fun n => runBody_filter_scanStep options n (urls n))]
    exact flatten_scanEvents urls _
